import Mathlib

/-!
# Vantage Market-Analysis dashboard — verification of the chart and refresh core

Shallow embedding of the Vantage frontend's chart-synchronization code
(`StockChart` component) and live-refresh controller (`Home` page component),
together with proofs of the specification's testable properties.

Modelling conventions:
* JS numbers that carry prices/volumes are modelled as `ℚ`.
* Time keys are modelled as naturals (the numeric branch of `toTime`, which the
  stitcher's sort comparator `(a.time as number) - (b.time as number)` assumes).
* An absent (`null`) value is `Option.none`; a JS array field is a `List`
  (an absent optional array behaves exactly like the empty one under the
  source's `?.length` truthiness guards).
* JavaScript's stable ascending sort is modelled by `List.insertionSort`
  with the `≤`-on-time relation, which is likewise stable.
-/

/-- One OHLCV sample, mirroring `OHLCVBar` in `lib/api.ts`. -/
structure OHLCVBar where
  date : Nat
  «open» : ℚ
  high : ℚ
  low : ℚ
  close : ℚ
  volume : ℚ
deriving DecidableEq

/-- Mirror of `OverlayPoint` from `lib/api.ts`: a time key and a nullable value. -/
structure OverlayPoint where
  date : Nat
  value : Option ℚ
deriving DecidableEq

/-- Mirror of `MACDPoint` from `lib/api.ts`: three nullable components per time key. -/
structure MACDPoint where
  date : Nat
  macd : Option ℚ
  signal : Option ℚ
  histogram : Option ℚ
deriving DecidableEq

/-- Mirror of `PredictionPoint` from `lib/api.ts`: the value is required. -/
structure PredictionPoint where
  date : Nat
  value : ℚ
deriving DecidableEq

/-- A `{time, value}` pair as fed to `setData` of a line/histogram series. -/
structure LinePoint where
  time : Nat
  value : ℚ
deriving DecidableEq

/-- Mirror of `ChartOverlays` from `lib/api.ts`. -/
structure ChartOverlays where
  sma_50 : List OverlayPoint
  sma_200 : List OverlayPoint
  sar : List OverlayPoint
  macd : List MACDPoint
  prediction : List PredictionPoint
  prediction_direction : String
  prediction_target : Option ℚ
deriving DecidableEq

/-- The five overlay visibility toggles (`active` state of `StockChart`). -/
structure ActiveOverlays where
  sma50 : Bool
  sma200 : Bool
  sar : Bool
  prediction : Bool
  macd : Bool
deriving DecidableEq

/-- Initial visibility state: all toggles on (`useState` initializer). -/
def ActiveOverlays.allOn : ActiveOverlays := ⟨true, true, true, true, true⟩

/-- All five toggles off. -/
def ActiveOverlays.allOff : ActiveOverlays := ⟨false, false, false, false, false⟩

/-- The Series Normalizer: `list.filter(p => p.value !== null).map(p => ({time, value}))`. -/
def normalizeSeries (l : List OverlayPoint) : List LinePoint :=
  (l.filter fun p => p.value.isSome).map fun p => ⟨p.date, p.value.getD 0⟩

/-- Re-embed a normalized point as an overlay point with a present value. -/
def LinePoint.toOverlay (q : LinePoint) : OverlayPoint := ⟨q.time, some q.value⟩

/-- Normalizer for one component of the MACD series:
`overlays.macd.filter(p => sel p !== null).map(p => ({time, value: sel p}))`. -/
def normalizeMacd (sel : MACDPoint → Option ℚ) (l : List MACDPoint) : List LinePoint :=
  (l.filter fun p => (sel p).isSome).map fun p => ⟨p.date, (sel p).getD 0⟩

/-- The sort relation of `predData.sort((a, b) => a.time - b.time)`. -/
def timeLE (a b : LinePoint) : Prop := a.time ≤ b.time

instance : DecidableRel timeLE := fun a b => Nat.decLe a.time b.time

instance : IsTotal LinePoint timeLE := ⟨fun a b => Nat.le_total a.time b.time⟩

instance : IsTrans LinePoint timeLE := ⟨fun _ _ _ h1 h2 => Nat.le_trans h1 h2⟩

/-- The tail of the duplicate-collapsing pass
`predData.filter((p, i) => i === 0 || p.time !== predData[i - 1].time)`:
each element is kept iff its time differs from its predecessor in the
(already sorted) input list. -/
def dedupAdjGo (prev : LinePoint) : List LinePoint → List LinePoint
  | [] => []
  | y :: ys => if y.time = prev.time then dedupAdjGo y ys else y :: dedupAdjGo y ys

/-- The duplicate-collapsing pass over the whole list (index 0 is always kept). -/
def dedupAdj : List LinePoint → List LinePoint
  | [] => []
  | x :: xs => x :: dedupAdjGo x xs

/-- The Prediction Stitcher (`predData` construction in `StockChart`):
prepend the synthetic anchor `{time: lastBar.time, value: lastBar.close}` to the
prediction points whose date differs from the last bar's, sort ascending by
time (stably), and collapse adjacent duplicate times. -/
def stitchPrediction (lastBar : OHLCVBar) (preds : List PredictionPoint) : List LinePoint :=
  dedupAdj (List.insertionSort timeLE
    (⟨lastBar.date, lastBar.close⟩ ::
      (preds.filter fun p => p.date ≠ lastBar.date).map fun p => ⟨p.date, p.value⟩))

/-- Strict version of `timeLE`: the time keys strictly increase. -/
def timeLT (a b : LinePoint) : Prop := a.time < b.time

instance : DecidableRel timeLT := fun a b => Nat.decLt a.time b.time

instance : IsTrans LinePoint timeLT := ⟨fun _ _ _ => Nat.lt_trans⟩

/-! ## The render pass of `StockChart`

The chart effect tears the previous panes down unconditionally and rebuilds
everything from the current payload and visibility snapshot; we model one run
of the effect as a pure function from its inputs to the panes it builds.
A `none` result is the early return on an empty bar list. -/

/-- One candlestick datum as fed to `candleSeries.setData`. -/
structure CandlePoint where
  time : Nat
  «open» : ℚ
  high : ℚ
  low : ℚ
  close : ℚ
deriving DecidableEq

/-- A Series attached to a pane (styling options are not modelled). -/
inductive Series where
  | candlesticks (d : List CandlePoint)
  | histogram (d : List LinePoint)
  | line (d : List LinePoint)
deriving DecidableEq

/-- A pane: its attached series and the logical range passed to
`setVisibleLogicalRange` (`none` when the pane is left at `fitContent`,
which shows every bar). -/
structure PaneView where
  series : List Series
  visibleRange : Option (Nat × Nat)
deriving DecidableEq

/-- The two chart surfaces built by one run of the effect. -/
structure RenderResult where
  price : PaneView
  macdPane : Option PaneView
deriving DecidableEq

/-- The overlay line series attached to the price chart, in source order:
each block is gated by its visibility toggle and the truthiness of
`overlays.xxx?.length`; the SAR block re-checks that the null-filtered list
is non-empty before attaching. -/
def overlaySeries (lastBar : OHLCVBar) (ov : ChartOverlays) (active : ActiveOverlays) :
    List Series :=
  (if active.sma50 ∧ ov.sma_50 ≠ [] then [.line (normalizeSeries ov.sma_50)] else [])
    ++ (if active.sma200 ∧ ov.sma_200 ≠ [] then [.line (normalizeSeries ov.sma_200)] else [])
    ++ (if active.sar ∧ ov.sar ≠ [] then
          (if normalizeSeries ov.sar ≠ [] then [.line (normalizeSeries ov.sar)] else [])
        else [])
    ++ (if active.prediction ∧ ov.prediction ≠ [] then
          [.line (stitchPrediction lastBar ov.prediction)]
        else [])

/-- The `setVisibleLogicalRange` argument: with `visibleBars = min 120 total`, a
range `{from: total - visibleBars, to: total}` is set only when
`total > visibleBars`; otherwise the pane stays at `fitContent`. -/
def visibleRangeFor (total : Nat) : Option (Nat × Nat) :=
  if total > min 120 total then some (total - min 120 total, total) else none

/-- The number of bars actually in view: the set range when one was set,
otherwise all bars (the `fitContent` default). -/
def effectiveRange (r : Option (Nat × Nat)) (total : Nat) : Nat × Nat :=
  r.getD (0, total)

/-- The MACD pane: built only when the MACD toggle is on and
`overlays.macd` is non-empty (the JSX renders the container under exactly the
same condition, so the `macdContainerRef.current` check coincides with it).
Its visible range uses the MACD line's own non-null point count. -/
def buildMacdPane (ov : ChartOverlays) (active : ActiveOverlays) : Option PaneView :=
  if active.macd ∧ ov.macd ≠ [] then
    some ⟨[.line (normalizeMacd MACDPoint.macd ov.macd),
           .line (normalizeMacd MACDPoint.signal ov.macd),
           .histogram (normalizeMacd MACDPoint.histogram ov.macd)],
          visibleRangeFor ((ov.macd.filter fun p => p.macd.isSome).length)⟩
  else none

/-- One run of the `StockChart` effect: early return on empty data, otherwise
build the price pane (candlesticks, volume histogram, gated overlay lines)
and, conditionally, the MACD pane. -/
def renderCharts (data : List OHLCVBar) (overlays : Option ChartOverlays)
    (active : ActiveOverlays) : Option RenderResult :=
  match data with
  | [] => none
  | b :: bs =>
    let bars := b :: bs
    let lastBar := bars.getLast (List.cons_ne_nil b bs)
    let candleData : List CandlePoint :=
      bars.map fun x => ⟨x.date, x.«open», x.high, x.low, x.close⟩
    let volData : List LinePoint := bars.map fun x => ⟨x.date, x.volume⟩
    let priceSeries : List Series :=
      [.candlesticks candleData, .histogram volData]
        ++ (match overlays with
            | some ov => overlaySeries lastBar ov active
            | none => [])
    let macdPane : Option PaneView :=
      match overlays with
      | some ov => buildMacdPane ov active
      | none => none
    some ⟨⟨priceSeries, visibleRangeFor candleData.length⟩, macdPane⟩

/-- The prediction banner in the JSX: rendered iff overlays are present, the
prediction toggle is on, and `prediction_target` is truthy (non-null and
non-zero).  When rendered, it computes
`(prediction_target - data[data.length-1].close) / data[data.length-1].close * 100`;
the inner `Option` is `none` exactly when `data` is empty, i.e. when the JS
expression reads `.close` off `undefined`. -/
def predictionBannerPct (data : List OHLCVBar) (overlays : Option ChartOverlays)
    (active : ActiveOverlays) : Option (Option ℚ) :=
  match overlays with
  | none => none
  | some ov =>
    if active.prediction then
      match ov.prediction_target with
      | some t =>
        if t ≠ 0 then
          some ((data.getLast?).map fun b => (t - b.close) / b.close * 100)
        else none
      | none => none
    else none

/-! ## The `Home` page refresh controller

The dashboard page is a single cooperative execution context whose state
changes only at discrete events: a search being submitted, the 60-second
interval timer firing, the manual refresh button being clicked, the
auto-refresh toggle, and a fetch completing (successfully or not).  We embed
it as a step function over an explicit state record; in-flight fetches are
tracked as a multiset (list) of issued requests, since the source itself
keeps no handle on them beyond the closures awaiting them. -/

/-- Which call site issued a fetch: `handleSearch` or `silentRefresh`. -/
inductive FetchKind where
  | search
  | silent
deriving DecidableEq

/-- One issued `analyzeStock` request. -/
structure FetchReq where
  ticker : String
  period : String
  interval : String
  kind : FetchKind
deriving DecidableEq

/-- The slice of `StockAnalysis` the page state machine stores; the remaining
payload fields are carried opaquely and irrelevant to every claim. -/
structure Analysis where
  ticker : String
  ohlcv : List OHLCVBar
deriving DecidableEq

/-- The outcome of an `analyzeStock` call: resolved payload (with the wall
clock read by `new Date()` at completion) or a rejection message. -/
inductive FetchOutcome where
  | success (data : Analysis) (now : Nat)
  | failure (msg : String)
deriving DecidableEq

/-- The `Home` component state: its `useState` hooks, the
`latestParamsRef` ref, and the list of in-flight fetches. -/
structure HomeState where
  analysis : Option Analysis
  isLoading : Bool
  error : Option String
  currentTicker : String
  activePeriod : String
  activeInterval : String
  autoRefresh : Bool
  lastRefreshed : Option Nat
  isRefreshing : Bool
  latestTicker : String
  latestPeriod : String
  latestInterval : String
  pending : List FetchReq
deriving DecidableEq

/-- The initial state of the `Home` component's hooks. -/
def initState : HomeState :=
  { analysis := none, isLoading := false, error := none, currentTicker := "",
    activePeriod := "2y", activeInterval := "1d", autoRefresh := true,
    lastRefreshed := none, isRefreshing := false, latestTicker := "",
    latestPeriod := "2y", latestInterval := "1d", pending := [] }

/-- The synchronous prefix of `silentRefresh`: return early when the latest
ticker is empty; otherwise set `isRefreshing` and issue the fetch for the
latest params.  There is no check of `isRefreshing` here. -/
def silentRefreshBegin (s : HomeState) : HomeState :=
  if s.latestTicker = "" then s
  else
    { s with isRefreshing := true,
             pending := s.pending ++
               [⟨s.latestTicker, s.latestPeriod, s.latestInterval, .silent⟩] }

/-- The synchronous prefix of `handleSearch`: set loading, clear the error,
record the new active params in both the state and `latestParamsRef`, and
issue the fetch. -/
def handleSearchBegin (s : HomeState) (t p i : String) : HomeState :=
  { s with isLoading := true, error := none, currentTicker := t,
           activePeriod := p, activeInterval := i,
           latestTicker := t, latestPeriod := p, latestInterval := i,
           pending := s.pending ++ [⟨t, p, i, .search⟩] }

/-- The continuation run when a fetch settles: the `then`/`catch`/`finally`
of `handleSearch` resp. `silentRefresh`.  Neither continuation compares the
fetched symbol with the currently active one. -/
def applyCompletion (s : HomeState) (f : FetchReq) (out : FetchOutcome) : HomeState :=
  match f.kind, out with
  | .search, .success d now =>
    { s with analysis := some d, lastRefreshed := some now, isLoading := false }
  | .search, .failure msg =>
    { s with error := some msg, analysis := none, isLoading := false }
  | .silent, .success d now =>
    { s with analysis := some d, lastRefreshed := some now, isRefreshing := false }
  | .silent, .failure _ =>
    { s with isRefreshing := false }

/-- The events that can change the page state. -/
inductive Event where
  | searchBegin (ticker period interval : String)
  | timerFire
  | manualClick
  | toggleAuto
  | complete (f : FetchReq) (out : FetchOutcome)
deriving DecidableEq

/-- One event step.  The interval timer exists iff `autoRefresh` is on and a
ticker is active (the timer effect arms it under exactly that condition), so
a `timerFire` outside that condition is a no-op.  The manual refresh button
is rendered only when a ticker is active and carries
`disabled={isRefreshing}`, so a click is a no-op while a refresh is in
flight.  A completion event for a request that is not in flight is ignored. -/
def step (s : HomeState) : Event → HomeState
  | .searchBegin t p i => handleSearchBegin s t p i
  | .timerFire =>
    if s.autoRefresh ∧ s.currentTicker ≠ "" then silentRefreshBegin s else s
  | .manualClick =>
    if s.currentTicker ≠ "" ∧ s.isRefreshing = false then silentRefreshBegin s else s
  | .toggleAuto => { s with autoRefresh := !s.autoRefresh }
  | .complete f out =>
    if f ∈ s.pending then
      applyCompletion { s with pending := s.pending.erase f } f out
    else s

/-- Run a sequence of events from a state. -/
def run (s : HomeState) : List Event → HomeState
  | [] => s
  | e :: es => run (step s e) es

/-! ## Helper lemmas -/

/-- Normalizing a sequence that is already normalized (re-embedded as overlay
points with present values) returns it unchanged. -/
theorem normalizeSeries_map_toOverlay (L : List LinePoint) :
    normalizeSeries (L.map LinePoint.toOverlay) = L := by
  induction L with
  | nil => rfl
  | cons q L ih =>
    simpa [normalizeSeries, LinePoint.toOverlay, List.filter, List.map] using ih

/-- The normalizer's output, re-embedded point by point, is exactly the
present-valued subsequence of its input. -/
theorem normalizeSeries_map_toOverlay_eq_filter (l : List OverlayPoint) :
    (normalizeSeries l).map LinePoint.toOverlay = l.filter fun p => p.value.isSome := by
  induction l with
  | nil => rfl
  | cons p l ih =>
    cases hv : p.value with
    | none => simpa [normalizeSeries, List.filter, hv] using ih
    | some v =>
      obtain ⟨d, pv⟩ := p
      cases hv
      simpa [normalizeSeries, LinePoint.toOverlay, List.filter, List.map] using ih

/-- A strict time chain is preserved under replacing its head by one with the
same time key. -/
theorem chain_timeLT_congr_head {a b : LinePoint} (hab : a.time = b.time)
    {L : List LinePoint} (h : List.Chain timeLT a L) : List.Chain timeLT b L := by
  cases h with
  | nil => exact List.Chain.nil
  | cons hr hc =>
    refine List.Chain.cons ?_ hc
    unfold timeLT at hr ⊢
    omega

/-- Collapsing adjacent duplicate time keys in a `≤`-chained list yields a
strictly increasing chain. -/
theorem dedupAdjGo_chain (l : List LinePoint) :
    ∀ prev, List.Chain timeLE prev l → List.Chain timeLT prev (dedupAdjGo prev l) := by
  induction l with
  | nil => exact fun _ _ => List.Chain.nil
  | cons y ys ih =>
    intro prev h
    cases h with
    | cons hr hc =>
      by_cases he : y.time = prev.time
      · rw [dedupAdjGo, if_pos he]
        exact chain_timeLT_congr_head he (ih y hc)
      · rw [dedupAdjGo, if_neg he]
        exact List.Chain.cons (Nat.lt_of_le_of_ne hr fun hh => he hh.symm) (ih y hc)

/-- The whole-list version of `dedupAdjGo_chain`. -/
theorem dedupAdj_chain' (l : List LinePoint) (h : List.Chain' timeLE l) :
    List.Chain' timeLT (dedupAdj l) := by
  cases l with
  | nil => exact trivial
  | cons x xs => exact dedupAdjGo_chain xs x h

/-- On a strictly increasing list the duplicate-collapsing pass is the
identity. -/
theorem dedupAdjGo_eq_self (l : List LinePoint) :
    ∀ prev, List.Chain timeLT prev l → dedupAdjGo prev l = l := by
  induction l with
  | nil => exact fun _ _ => rfl
  | cons y ys ih =>
    intro prev h
    cases h with
    | cons hr hc =>
      rw [dedupAdjGo, if_neg (Nat.ne_of_lt hr).symm, ih y hc]

/-! ## Claim theorems -/

/-- C5: for every overlay point list, the Series Normalizer's output is
exactly the subsequence of input points whose value is present (re-embedding
each output point as an overlay point recovers precisely the present-valued
input points, in input order), and normalization is idempotent: applying it
to its own (re-embedded) output returns that output unchanged. -/
theorem C5_normalizer_exact_subsequence_and_idempotent (l : List OverlayPoint) :
    (normalizeSeries l).map LinePoint.toOverlay = (l.filter fun p => p.value.isSome) ∧
    normalizeSeries ((normalizeSeries l).map LinePoint.toOverlay) = normalizeSeries l :=
  ⟨normalizeSeries_map_toOverlay_eq_filter l, normalizeSeries_map_toOverlay _⟩

/-- C1 counterexample: with a single bar at time 5 closing at 100 and one
prediction point at the earlier time 2, the stitched output starts with the
prediction point, not with the synthetic anchor, so its first element's value
(50) differs from the last bar's close (100) — the claim's universal
"begins with the synthetic anchor / first element's value equals the last
bar's close" fails for prediction points that precede the last bar. -/
theorem C1_counterexample :
    stitchPrediction ⟨5, 100, 100, 100, 100, 0⟩ [⟨2, 50⟩] = [⟨2, 50⟩, ⟨5, 100⟩] ∧
    (stitchPrediction ⟨5, 100, 100, 100, 100, 0⟩ [⟨2, 50⟩]).head?.map LinePoint.value ≠
      some (100 : ℚ) := by
  constructor
  · decide
  · decide

/-- C1 (amended): for every non-empty bar list and every prediction list, the
stitched output is strictly increasing in time key (hence non-decreasing with
no two adjacent equal time keys); and whenever the prediction points' time
keys are strictly increasing and all strictly after the last bar's time key
(which is what the data model promises), the output is exactly the synthetic
anchor `{time: lastBar.time, value: lastBar.close}` followed by every
prediction point — so it begins with the anchor and its first element's value
equals the last bar's close.  (The claim's unconditional anchor-first clause
is false; see the counterexample.) -/
theorem C1_stitcher_amended (data : List OHLCVBar) (h : data ≠ [])
    (preds : List PredictionPoint) :
    List.Chain' timeLT (stitchPrediction (data.getLast h) preds) ∧
    (List.Chain' (fun p q : PredictionPoint => p.date < q.date) preds →
      (∀ p ∈ preds, (data.getLast h).date < p.date) →
      stitchPrediction (data.getLast h) preds =
        ⟨(data.getLast h).date, (data.getLast h).close⟩ ::
          (preds.map fun p => (⟨p.date, p.value⟩ : LinePoint))) := by
  set lastBar := data.getLast h with hlb
  constructor
  · apply dedupAdj_chain'
    exact (List.sorted_insertionSort timeLE _).chain'
  · intro hchain hgt
    have hfil : (preds.filter fun p => p.date ≠ lastBar.date) = preds := by
      rw [List.filter_eq_self]
      intro p hp
      simpa using (Nat.ne_of_lt (hgt p hp)).symm
    have htrans : IsTrans PredictionPoint (fun p q => p.date < q.date) :=
      ⟨fun _ _ _ => Nat.lt_trans⟩
    have hpw : List.Pairwise (fun p q : PredictionPoint => p.date < q.date) preds :=
      (@List.chain'_iff_pairwise _ _ htrans _).mp hchain
    have hPWlt :
        List.Pairwise timeLT
          ((⟨lastBar.date, lastBar.close⟩ : LinePoint) ::
            (preds.map fun p => (⟨p.date, p.value⟩ : LinePoint))) := by
      rw [List.pairwise_cons]
      constructor
      · intro b hb
        obtain ⟨p, hp, rfl⟩ := List.mem_map.mp hb
        exact hgt p hp
      · exact List.pairwise_map.mpr (hpw.imp fun hab => hab)
    have hsorted :
        List.Sorted timeLE
          ((⟨lastBar.date, lastBar.close⟩ : LinePoint) ::
            (preds.map fun p => (⟨p.date, p.value⟩ : LinePoint))) :=
      hPWlt.imp fun hab => Nat.le_of_lt hab
    have hchainLT :
        List.Chain timeLT (⟨lastBar.date, lastBar.close⟩ : LinePoint)
          (preds.map fun p => (⟨p.date, p.value⟩ : LinePoint)) :=
      List.chain_iff_pairwise.mpr hPWlt
    rw [stitchPrediction, hfil, List.Sorted.insertionSort_eq hsorted, dedupAdj,
      dedupAdjGo_eq_self _ _ hchainLT]

/-- Witness for `C1_stitcher_amended`: the spec's end-to-end example — bars
`[{t:1, close:100}]` with predictions `[{t:2,102},{t:3,105}]` stitch to
`[{t:1,100},{t:2,102},{t:3,105}]`, which is strictly increasing in time. -/
theorem C1_stitcher_amended_witness :
    List.Chain' timeLT (stitchPrediction ⟨1, 100, 100, 100, 100, 0⟩ [⟨2, 102⟩, ⟨3, 105⟩]) ∧
    stitchPrediction ⟨1, 100, 100, 100, 100, 0⟩ [⟨2, 102⟩, ⟨3, 105⟩] =
      [⟨1, 100⟩, ⟨2, 102⟩, ⟨3, 105⟩] := by
  have h := C1_stitcher_amended [⟨1, 100, 100, 100, 100, 0⟩]
    (List.cons_ne_nil _ _) [⟨2, 102⟩, ⟨3, 105⟩]
  exact ⟨h.1, (h.2 (by norm_num [List.chain'_cons]) (by decide)).trans (by decide)⟩

/-- A sample bar used for concrete instantiations. -/
def bar0 : OHLCVBar := ⟨1, 10, 10, 10, 10, 5⟩

/-- Overlays whose MACD list holds a single all-null point. -/
def ovNullMacd : ChartOverlays := ⟨[], [], [], [⟨7, none, none, none⟩], [], "flat", none⟩

/-- The pane stays at the range it was set to, or shows everything. -/
theorem effectiveRange_visibleRangeFor (n : Nat) :
    effectiveRange (visibleRangeFor n) n = (n - min 120 n, n) := by
  unfold visibleRangeFor effectiveRange
  by_cases h : n > min 120 n
  · simp [h]
  · have hmin : min 120 n = n := Nat.le_antisymm (Nat.min_le_right _ _) (Nat.not_lt.mp h)
    simp [h, hmin]

/-- C8: whenever the bar list is non-empty and all five overlay toggles are
off, the rendered price pane holds exactly two series — the candlesticks and
the volume histogram — and no MACD pane is built, for any overlay payload. -/
theorem C8_all_toggles_off (data : List OHLCVBar) (h : data ≠ [])
    (overlays : Option ChartOverlays) :
    renderCharts data overlays ActiveOverlays.allOff =
      some ⟨⟨[.candlesticks (data.map fun x => ⟨x.date, x.«open», x.high, x.low, x.close⟩),
              .histogram (data.map fun x => ⟨x.date, x.volume⟩)],
             visibleRangeFor data.length⟩, none⟩ := by
  match data with
  | [] => exact absurd rfl h
  | b :: bs =>
    cases overlays with
    | none => simp [renderCharts]
    | some ov => simp [renderCharts, overlaySeries, buildMacdPane, ActiveOverlays.allOff]

/-- Witness for `C8_all_toggles_off`: a one-bar payload with no overlays. -/
theorem C8_all_toggles_off_witness :
    renderCharts [bar0] none ActiveOverlays.allOff =
      some ⟨⟨[.candlesticks [⟨1, 10, 10, 10, 10⟩], .histogram [⟨1, 5⟩]],
             visibleRangeFor 1⟩, none⟩ :=
  (C8_all_toggles_off [bar0] (List.cons_ne_nil _ _) none).trans (by decide)

/-- The MACD line's non-null point count, as read off the overlay payload. -/
def macdFastCount : Option ChartOverlays → Nat
  | some ov => (ov.macd.filter fun p => p.macd.isSome).length
  | none => 0

/-- C9: after every render of a non-empty payload, the price pane's effective
visible window is the trailing `min 120 n` bars (`fitContent`, i.e. all bars,
when `n ≤ 120`), and the MACD pane — when built — gets its window from its
own non-null fast-line point count in the same `min 120` way. -/
theorem C9_default_visible_window (data : List OHLCVBar) (h : data ≠ [])
    (overlays : Option ChartOverlays) (active : ActiveOverlays) :
    ∃ res, renderCharts data overlays active = some res ∧
      effectiveRange res.price.visibleRange data.length =
        (data.length - min 120 data.length, data.length) ∧
      ∀ mp, res.macdPane = some mp →
        effectiveRange mp.visibleRange (macdFastCount overlays) =
          (macdFastCount overlays - min 120 (macdFastCount overlays),
            macdFastCount overlays) := by
  match data with
  | [] => exact absurd rfl h
  | b :: bs =>
    refine ⟨_, rfl, ?_, ?_⟩
    · simpa using effectiveRange_visibleRangeFor (b :: bs).length
    · intro mp hmp
      cases overlays with
      | none => simp at hmp
      | some ov =>
        simp only [buildMacdPane] at hmp
        split at hmp
        · cases hmp
          simpa [macdFastCount] using
            effectiveRange_visibleRangeFor ((ov.macd.filter fun p => p.macd.isSome).length)
        · cases hmp

/-- Witness for `C9_default_visible_window`: 40 bars of (weekly) data leave
the price pane showing all 40 bars, since `40 < 120` — the spec's end-to-end
window-reset example. -/
theorem C9_default_visible_window_witness :
    ∃ res, renderCharts (List.replicate 40 bar0) none ActiveOverlays.allOn = some res ∧
      effectiveRange res.price.visibleRange 40 = (0, 40) := by
  obtain ⟨res, hres, hpr, _⟩ :=
    C9_default_visible_window (List.replicate 40 bar0) (by decide) none ActiveOverlays.allOn
  exact ⟨res, hres, hpr.trans (by decide)⟩

/-- C7 counterexample: with one bar, the MACD toggle on, and a MACD list
holding a single all-null point, a MACD pane IS built even though the
normalized fast-line sequence is empty — the pane gate tests the raw
`overlays.macd.length`, not the null-filtered fast line. -/
theorem C7_counterexample :
    (renderCharts [bar0] (some ovNullMacd) ActiveOverlays.allOn).map
        (fun r => r.macdPane.isSome) = some true ∧
    normalizeMacd MACDPoint.macd ovNullMacd.macd = [] := by
  constructor
  · decide
  · decide

/-- C7 (amended): on every render of a non-empty payload with overlays, the
MACD pane is created iff the MACD toggle is visible and the raw MACD point
list is non-empty — regardless of whether any fast-line value is present. -/
theorem C7_macd_pane_gate_amended (data : List OHLCVBar) (h : data ≠ [])
    (ov : ChartOverlays) (active : ActiveOverlays) :
    ∃ res, renderCharts data (some ov) active = some res ∧
      (res.macdPane.isSome ↔ (active.macd = true ∧ ov.macd ≠ [])) := by
  match data with
  | [] => exact absurd rfl h
  | b :: bs =>
    refine ⟨_, rfl, ?_⟩
    simp only [buildMacdPane]
    by_cases hc : active.macd = true ∧ ov.macd ≠ []
    · simp [hc]
    · simp only [if_neg hc, Option.isSome_none]
      simpa using hc

/-- Witness for `C7_macd_pane_gate_amended`: at the all-null MACD payload the
gate is satisfied, so the pane is reported created. -/
theorem C7_macd_pane_gate_amended_witness :
    ∃ res, renderCharts [bar0] (some ovNullMacd) ActiveOverlays.allOn = some res ∧
      (res.macdPane.isSome ↔ (ActiveOverlays.allOn.macd = true ∧ ovNullMacd.macd ≠ [])) :=
  C7_macd_pane_gate_amended [bar0] (List.cons_ne_nil _ _) ovNullMacd ActiveOverlays.allOn

/-- Overlays carrying only a prediction target. -/
def ovWithTarget : ChartOverlays := ⟨[], [], [], [], [], "up", some 102⟩

/-- C10: at the failing input — empty bar list, non-null (and non-zero)
`prediction_target`, prediction toggle at its default `true` — the chart
effect itself is guarded (`renderCharts` returns `none`), but the prediction
banner is still rendered and its percentage expression reads the last bar of
an empty list (`some none` = banner shown, last-bar lookup missed): the JS
code evaluates `data[data.length - 1].close` with `data[-1] = undefined`. -/
theorem C10_banner_reads_missing_last_bar :
    predictionBannerPct [] (some ovWithTarget) ActiveOverlays.allOn = some none ∧
    renderCharts [] (some ovWithTarget) ActiveOverlays.allOn = none := by
  constructor
  · decide
  · decide

/-- The search fetch issued by `handleSearch("AAPL", "2y", "1d")`. -/
def fetchAAPL : FetchReq := ⟨"AAPL", "2y", "1d", .search⟩

/-- The search fetch issued by `handleSearch("TSLA", "2y", "1d")`. -/
def fetchTSLA : FetchReq := ⟨"TSLA", "2y", "1d", .search⟩

/-- A sample payload for AAPL. -/
def analysisAAPL : Analysis := ⟨"AAPL", [bar0]⟩

/-- A sample payload for TSLA. -/
def analysisTSLA : Analysis := ⟨"TSLA", [bar0]⟩

/-- Search AAPL, let it succeed, then let the 60-second timer fire twice
before the first silent refresh completes. -/
def c2Trace : List Event :=
  [.searchBegin "AAPL" "2y" "1d",
   .complete fetchAAPL (.success analysisAAPL 10),
   .timerFire,
   .timerFire]

/-- C2 counterexample: after a successful load, a timer tick starts a silent
refresh (`isRefreshing = true`); a second tick arriving while that refresh is
still in flight is NOT skipped — it issues another request, leaving two
silent fetches for AAPL in flight at once.  `silentRefresh` never consults
the in-flight flag. -/
theorem C2_counterexample :
    (run initState (c2Trace.take 3)).isRefreshing = true ∧
    (run initState c2Trace).pending =
      [⟨"AAPL", "2y", "1d", .silent⟩, ⟨"AAPL", "2y", "1d", .silent⟩] := by
  constructor
  · decide
  · decide

/-- C2 (amended): the only in-flight guard is the manual refresh button's
`disabled={isRefreshing}` attribute — a click while a refresh is in flight
changes nothing; but a scheduled tick is never skipped: whenever auto-refresh
is on and a symbol is active, `timerFire` appends a new silent fetch to the
in-flight list regardless of `isRefreshing`, so two refreshes can be in
flight concurrently. -/
theorem C2_inflight_guard_amended (s : HomeState) :
    (s.isRefreshing = true → step s Event.manualClick = s) ∧
    (s.autoRefresh = true → s.currentTicker ≠ "" → s.latestTicker ≠ "" →
      (step s Event.timerFire).pending =
        s.pending ++ [⟨s.latestTicker, s.latestPeriod, s.latestInterval, .silent⟩]) := by
  constructor
  · intro h
    simp [step, h]
  · intro ha hc hl
    simp [step, ha, hc, silentRefreshBegin, hl]

/-- A state with an AAPL refresh in flight. -/
def busyState : HomeState :=
  { initState with currentTicker := "AAPL", latestTicker := "AAPL",
                   analysis := some analysisAAPL, isRefreshing := true,
                   pending := [⟨"AAPL", "2y", "1d", .silent⟩] }

/-- Witness for `C2_inflight_guard_amended` at `busyState`. -/
theorem C2_inflight_guard_amended_witness :
    step busyState Event.manualClick = busyState ∧
    (step busyState Event.timerFire).pending =
      [⟨"AAPL", "2y", "1d", .silent⟩, ⟨"AAPL", "2y", "1d", .silent⟩] := by
  have h := C2_inflight_guard_amended busyState
  exact ⟨h.1 rfl, (h.2 rfl (by decide) (by decide)).trans (by decide)⟩

/-- Search AAPL, switch to TSLA while the AAPL fetch is still in flight, let
the TSLA fetch land first, then let the stale AAPL fetch land. -/
def c3Trace : List Event :=
  [.searchBegin "AAPL" "2y" "1d",
   .searchBegin "TSLA" "2y" "1d",
   .complete fetchTSLA (.success analysisTSLA 1),
   .complete fetchAAPL (.success analysisAAPL 2)]

/-- C3 counterexample: the stale AAPL result lands after the user switched to
TSLA, and is applied anyway — the rendered analysis ends as the AAPL payload
although the active symbol is TSLA.  No completion-time symbol check exists
in either fetch continuation. -/
theorem C3_counterexample :
    (run initState c3Trace).currentTicker = "TSLA" ∧
    (run initState c3Trace).analysis = some analysisAAPL ∧
    analysisAAPL ≠ analysisTSLA := by
  refine ⟨?_, ?_, ?_⟩
  · decide
  · decide
  · decide

/-- C3 (amended): every fetch completion that succeeds is applied to the
rendered analysis state unconditionally — in particular even when the symbol
the fetch was issued for no longer equals the currently active symbol; stale
results are never dropped. -/
theorem C3_stale_results_applied_amended (s : HomeState) (f : FetchReq)
    (d : Analysis) (now : Nat) (hf : f ∈ s.pending)
    (hne : f.ticker ≠ s.currentTicker) :
    (step s (.complete f (.success d now))).analysis = some d ∧
    (step s (.complete f (.success d now))).currentTicker = s.currentTicker := by
  have _ := hne
  simp only [step, if_pos hf]
  cases hk : f.kind <;> simp [applyCompletion, hk]

/-- A state whose active symbol is TSLA while an AAPL search is in flight. -/
def staleState : HomeState :=
  { initState with currentTicker := "TSLA", latestTicker := "TSLA",
                   pending := [fetchAAPL] }

/-- Witness for `C3_stale_results_applied_amended` at `staleState`. -/
theorem C3_stale_results_applied_amended_witness :
    (step staleState (.complete fetchAAPL (.success analysisAAPL 2))).analysis =
      some analysisAAPL ∧
    (step staleState (.complete fetchAAPL (.success analysisAAPL 2))).currentTicker =
      "TSLA" :=
  C3_stale_results_applied_amended staleState fetchAAPL analysisAAPL 2
    (by decide) (by decide)

/-- C4: a failed silent (background or manual) refresh changes nothing except
the in-flight bookkeeping: the whole state is unchanged apart from removing
the settled fetch and resetting `isRefreshing` — so the rendered analysis,
the `lastRefreshed` timestamp, and the user-visible error are all preserved
and no error is surfaced. -/
theorem C4_silent_failure_swallowed (s : HomeState) (f : FetchReq) (msg : String)
    (hk : f.kind = FetchKind.silent) (hf : f ∈ s.pending) :
    step s (.complete f (.failure msg)) =
      { s with pending := s.pending.erase f, isRefreshing := false } := by
  simp only [step, if_pos hf]
  cases f with
  | mk t p i k =>
    cases hk
    simp [applyCompletion]

/-- A state after a successful first load with one silent refresh in flight. -/
def refreshingState : HomeState :=
  { initState with currentTicker := "AAPL", latestTicker := "AAPL",
                   analysis := some analysisAAPL, lastRefreshed := some 10,
                   isRefreshing := true,
                   pending := [⟨"AAPL", "2y", "1d", .silent⟩] }

/-- Witness for `C4_silent_failure_swallowed`: a failing background refresh
after a successful first load leaves the payload, timestamp and error state
untouched. -/
theorem C4_silent_failure_swallowed_witness :
    step refreshingState (.complete ⟨"AAPL", "2y", "1d", .silent⟩ (.failure "boom")) =
      { refreshingState with pending := [], isRefreshing := false } := by
  have h := C4_silent_failure_swallowed refreshingState
    ⟨"AAPL", "2y", "1d", .silent⟩ "boom" rfl (by decide)
  exact h.trans (by decide)

/-- Search AAPL, let the first load fail, then let the timer fire. -/
def c6Trace : List Event :=
  [.searchBegin "AAPL" "2y" "1d",
   .complete fetchAAPL (.failure "boom"),
   .timerFire]

/-- C6 counterexample: after a search whose very first fetch failed, no fetch
has ever completed successfully (`analysis` and `lastRefreshed` are still
`none`), yet the armed timer's tick issues a silent refresh fetch for AAPL —
the timer effect gates only on `autoRefresh && currentTicker`, which
`handleSearch` sets before the fetch resolves. -/
theorem C6_counterexample :
    (run initState (c6Trace.take 2)).analysis = none ∧
    (run initState (c6Trace.take 2)).lastRefreshed = none ∧
    (run initState c6Trace).pending = [⟨"AAPL", "2y", "1d", .silent⟩] := by
  refine ⟨?_, ?_, ?_⟩
  · decide
  · decide
  · decide

/-- C6 (amended): enabling auto-refresh is a no-op only while no symbol is
active (empty `currentTicker`); once a search has set the ticker, a timer
tick issues a refresh fetch even when no fetch has ever completed
successfully (`lastRefreshed` still `none`). -/
theorem C6_no_op_only_without_symbol_amended (s : HomeState) :
    (s.currentTicker = "" → step s Event.timerFire = s) ∧
    (s.autoRefresh = true → s.currentTicker ≠ "" → s.latestTicker ≠ "" →
      s.lastRefreshed = none →
      (step s Event.timerFire).pending =
        s.pending ++ [⟨s.latestTicker, s.latestPeriod, s.latestInterval, .silent⟩]) := by
  constructor
  · intro h
    simp [step, h]
  · intro ha hc hl _
    simp [step, ha, hc, silentRefreshBegin, hl]

/-- A state right after a failed first load for AAPL. -/
def failedLoadState : HomeState :=
  { initState with currentTicker := "AAPL", latestTicker := "AAPL",
                   error := some "boom" }

/-- Witness for `C6_no_op_only_without_symbol_amended`: a tick in the initial
state is a no-op, while a tick after a failed first load issues a fetch. -/
theorem C6_no_op_only_without_symbol_amended_witness :
    step initState Event.timerFire = initState ∧
    (step failedLoadState Event.timerFire).pending = [⟨"AAPL", "2y", "1d", .silent⟩] := by
  refine ⟨(C6_no_op_only_without_symbol_amended initState).1 rfl, ?_⟩
  have h := (C6_no_op_only_without_symbol_amended failedLoadState).2
    rfl (by decide) (by decide) rfl
  exact h.trans (by decide)
